import Mathlib

/-!
Shallow embedding of the glium-ui-rs widget/focus dispatch model (src/ui.rs)
and the draw-buffer batching layer (src/render.rs).

Conventions:
- Rust `f32` values are modelled as `ℚ`; all comparisons and arithmetic used
  by the claims are exact on the inputs considered.
- Rust panics are modelled as `Except Fault _` errors (render layer) or as
  `Option` with `none` marking the panic (`tab_focus` modulo-by-zero).
- Fields that are read only by the `draw` methods (labels, backgrounds,
  colors, placeholder text, cursor-blink timestamps) are omitted: they have
  no bearing on event dispatch, focus, or buffer state.
-/

namespace GliumUI

/-- Mouse buttons, after glium's `MouseButton` (only `Left` is inspected by
the widgets; the rest are collapsed into the catch-all cases as in a Rust
`match` wildcard). -/
inductive MouseButton
  | left
  | right
  | middle
  | other (n : Nat)
deriving DecidableEq, Repr

/-- Button/key state, after glium's `ElementState`. -/
inductive ElementState
  | pressed
  | released
deriving DecidableEq, Repr

/-- Key codes, after glium's `VirtualKeyCode`: the constructors the widget
code matches on, plus a catch-all. `returnKey` stands for
`VirtualKeyCode::Return`. -/
inductive VirtualKeyCode
  | back
  | escape
  | delete
  | v
  | returnKey
  | otherKey (n : Nat)
deriving DecidableEq, Repr

/-- Keyboard input record, after glium's `KeyboardInput`; `ctrl` is the only
modifier the widget code reads (`modifiers.ctrl()`). -/
structure KeyboardInput where
  virtual_keycode : Option VirtualKeyCode
  state : ElementState
  ctrl : Bool
deriving DecidableEq, Repr

/-- Scroll deltas, after glium's `MouseScrollDelta` (no widget overrides
`on_mouse_wheel`, so the payload is never inspected). -/
inductive MouseScrollDelta
  | lineDelta (x y : ℚ)
  | pixelDelta (x y : ℚ)
deriving DecidableEq, Repr

/-- Widget events, after `WidgetEvent` in src/ui.rs. -/
inductive WidgetEvent
  | buttonClicked (id : String)
  | textValueChanged (id : String) (value : String)
  | scrollValueChanged (id : String) (value : ℚ) (max : ℚ) (steps : Nat)
  | focusChanged (id : String) (focus : Bool)
deriving DecidableEq, Repr

/-- Test whether an event is a `FocusChanged` (of either polarity); used by
`propagate_event`'s filter. -/
def WidgetEvent.isFocusChanged : WidgetEvent → Bool
  | .focusChanged _ _ => true
  | _ => false

/-- Test whether an event is `FocusChanged { focus: true }`; used by
`propagate_event` to record a focus request. -/
def WidgetEvent.isFocusTrue : WidgetEvent → Bool
  | .focusChanged _ true => true
  | _ => false

/-- Default `Widget::is_mouse_over` bounds test from src/ui.rs lines 167-171
(none of the three widgets overrides it). -/
def is_mouse_over (bounds : ℚ × ℚ × ℚ × ℚ) (mouse : ℚ × ℚ) : Bool :=
  let (mouse_x, mouse_y) := mouse
  let (x, y, w, h) := bounds
  decide (mouse_x ≥ x) && decide (mouse_x ≤ x + w) &&
    decide (mouse_y ≥ y) && decide (mouse_y ≤ y + h)

/-- State of a `Button` (src/ui.rs lines 217-226); `label` and the two
backgrounds are draw-only and omitted. -/
structure Button where
  id : String
  bounds : ℚ × ℚ × ℚ × ℚ
  pressed : Bool
  hover : Bool
  focused : Bool

/-- Constructor `Button::new` (src/ui.rs lines 316-330), restricted to the
event-relevant fields. -/
def Button.new (id : String) (x y w h : ℚ) : Button :=
  { id := id, bounds := (x, y, w, h), pressed := false, hover := false, focused := false }

/-- Translation of `Button::on_mouse_button` (src/ui.rs lines 261-281). -/
def Button.on_mouse_button (b : Button) (button : MouseButton) (state : ElementState)
    (_pos : ℚ × ℚ) : Button × List WidgetEvent :=
  if b.hover then
    match button with
    | .left =>
      if state = .pressed then
        ({ b with pressed := true }, [.focusChanged b.id true])
      else
        ({ b with pressed := false }, [.buttonClicked b.id])
    | _ => (b, [])
  else
    (b, [])

/-- Translation of `Button::on_mouse_move` (src/ui.rs lines 283-286). -/
def Button.on_mouse_move (b : Button) (pos : ℚ × ℚ) : Button × List WidgetEvent :=
  ({ b with hover := is_mouse_over b.bounds pos }, [])

/-- Translation of `Button::on_keyboard_key` (src/ui.rs lines 288-299). -/
def Button.on_keyboard_key (b : Button) (input : KeyboardInput) : Button × List WidgetEvent :=
  if b.focused ∧ input.virtual_keycode = some .returnKey then
    if input.state = .pressed then
      ({ b with pressed := true }, [])
    else
      ({ b with pressed := false }, [.buttonClicked b.id])
  else
    (b, [])

/-- State of a `TextField` (src/ui.rs lines 335-345); `placeholder`, `mask`,
`background` and `last_input_changed` are draw-only and omitted. The boxed
filter closure is modelled as an optional Lean function. -/
structure TextField where
  id : String
  value : String
  filter : Option (Char → String → Bool)
  focused : Bool
  bounds : ℚ × ℚ × ℚ × ℚ

/-- Translation of `TextField::on_mouse_button` (src/ui.rs lines 380-390). -/
def TextField.on_mouse_button (t : TextField) (button : MouseButton) (state : ElementState)
    (pos : ℚ × ℚ) : TextField × List WidgetEvent :=
  if is_mouse_over t.bounds pos then
    if button = .left ∧ state = .pressed then
      ({ t with focused := true }, [.focusChanged t.id true])
    else
      (t, [])
  else
    ({ t with focused := false }, [])

/-- Translation of `TextField::on_keyboard_key` (src/ui.rs lines 392-425).
The clipboard contents read on Ctrl+V are passed in as a parameter. -/
def TextField.on_keyboard_key (t : TextField) (input : KeyboardInput) (clipboard : String) :
    TextField × List WidgetEvent :=
  if t.focused ∧ input.state = .pressed then
    match input.virtual_keycode with
    | some .back =>
      if t.value ≠ "" then
        let v := t.value.dropRight 1
        ({ t with value := v }, [.textValueChanged t.id v])
      else
        (t, [])
    | some .escape => ({ t with focused := false }, [])
    | some .delete => ({ t with value := "" }, [])
    | some .v =>
      if input.ctrl then
        let v := t.value ++ clipboard
        ({ t with value := v }, [.textValueChanged t.id v])
      else
        (t, [])
    | _ => (t, [])
  else
    (t, [])

/-- Rust's `char::is_control`: the Unicode Cc category, i.e. U+0000..U+001F,
U+007F..U+009F. -/
def charIsControl (c : Char) : Bool :=
  c.val < 32 || (0x7f ≤ c.val && c.val ≤ 0x9f)

/-- Translation of `TextField::on_keyboard_char` (src/ui.rs lines 427-441). -/
def TextField.on_keyboard_char (t : TextField) (ch : Char) : TextField × List WidgetEvent :=
  if t.focused ∧ (ch = ' ' ∨ ¬ charIsControl ch) then
    match t.filter with
    | some f =>
      if f ch t.value then
        let v := t.value.push ch
        ({ t with value := v }, [.textValueChanged t.id v])
      else
        (t, [])
    | none =>
      let v := t.value.push ch
      ({ t with value := v }, [.textValueChanged t.id v])
  else
    (t, [])

/-- State of a `ScrollBar` (src/ui.rs lines 511-519); `color` is draw-only
and omitted. -/
structure ScrollBar where
  id : String
  steps : Nat
  value : ℚ
  max : ℚ
  focused : Bool
  bounds : ℚ × ℚ × ℚ × ℚ

/-- Translation of `ScrollBar::on_mouse_button` (src/ui.rs lines 554-580).
Rust's `x.max(0.0).min(self.max)` is `min (max x 0) s.max`. -/
def ScrollBar.on_mouse_button (s : ScrollBar) (button : MouseButton) (state : ElementState)
    (pos : ℚ × ℚ) : ScrollBar × List WidgetEvent :=
  if is_mouse_over s.bounds pos then
    if button = .left then
      if state = .pressed then
        let (mouse_x, _) := pos
        let (x, _, w, _) := s.bounds
        let value := Min.min (Max.max ((mouse_x - x) / w * s.max) 0) s.max
        ({ s with focused := true, value := value },
          [.focusChanged s.id true, .scrollValueChanged s.id value s.max s.steps])
      else
        ({ s with focused := false }, [.focusChanged s.id false])
    else
      (s, [])
  else
    ({ s with focused := false }, [])

/-- Translation of `ScrollBar::on_mouse_move` (src/ui.rs lines 582-596). -/
def ScrollBar.on_mouse_move (s : ScrollBar) (pos : ℚ × ℚ) : ScrollBar × List WidgetEvent :=
  if s.focused then
    let (mouse_x, _) := pos
    let (x, _, w, _) := s.bounds
    let value := Min.min (Max.max ((mouse_x - x) / w * s.max) 0) s.max
    if value ≠ s.value then
      ({ s with value := value }, [.scrollValueChanged s.id value s.max s.steps])
    else
      (s, [])
  else
    (s, [])

/-- Closed union of the widget variants implemented in src/ui.rs (the Rust
code stores them as `Box<dyn Widget<S>>`). -/
inductive WidgetState
  | button (b : Button)
  | textField (t : TextField)
  | scrollBar (s : ScrollBar)

/-- Dispatch of `Widget::get_id`. -/
def WidgetState.get_id : WidgetState → String
  | .button b => b.id
  | .textField t => t.id
  | .scrollBar s => s.id

/-- Dispatch of `Widget::is_focused`. -/
def WidgetState.is_focused : WidgetState → Bool
  | .button b => b.focused
  | .textField t => t.focused
  | .scrollBar s => s.focused

/-- Dispatch of `Widget::set_focused`. -/
def WidgetState.set_focused : WidgetState → Bool → WidgetState
  | .button b, f => .button { b with focused := f }
  | .textField t, f => .textField { t with focused := f }
  | .scrollBar s, f => .scrollBar { s with focused := f }

/-- Dispatch of `Widget::on_mouse_button` over the variants (TextField and
ScrollBar override it; Button overrides it; no default case is reachable). -/
def WidgetState.on_mouse_button : WidgetState → MouseButton → ElementState → ℚ × ℚ →
    WidgetState × List WidgetEvent
  | .button b, mb, st, pos =>
    let r := b.on_mouse_button mb st pos
    (.button r.1, r.2)
  | .textField t, mb, st, pos =>
    let r := t.on_mouse_button mb st pos
    (.textField r.1, r.2)
  | .scrollBar s, mb, st, pos =>
    let r := s.on_mouse_button mb st pos
    (.scrollBar r.1, r.2)

/-- Dispatch of `Widget::on_mouse_wheel`: no widget overrides it, so the
trait default (empty event list, state untouched) applies everywhere. -/
def WidgetState.on_mouse_wheel (e : WidgetState) (_delta : MouseScrollDelta) :
    WidgetState × List WidgetEvent :=
  (e, [])

/-- Dispatch of `Widget::on_mouse_move` (Button and ScrollBar override it;
TextField keeps the trait default). -/
def WidgetState.on_mouse_move : WidgetState → ℚ × ℚ → WidgetState × List WidgetEvent
  | .button b, pos =>
    let r := b.on_mouse_move pos
    (.button r.1, r.2)
  | .textField t, _pos => (.textField t, [])
  | .scrollBar s, pos =>
    let r := s.on_mouse_move pos
    (.scrollBar r.1, r.2)

/-- Dispatch of `Widget::on_keyboard_key` (Button and TextField override it;
ScrollBar keeps the trait default). -/
def WidgetState.on_keyboard_key : WidgetState → KeyboardInput → String →
    WidgetState × List WidgetEvent
  | .button b, input, _clip =>
    let r := b.on_keyboard_key input
    (.button r.1, r.2)
  | .textField t, input, clip =>
    let r := t.on_keyboard_key input clip
    (.textField r.1, r.2)
  | .scrollBar s, _input, _clip => (.scrollBar s, [])

/-- Dispatch of `Widget::on_keyboard_char` (only TextField overrides it). -/
def WidgetState.on_keyboard_char : WidgetState → Char → WidgetState × List WidgetEvent
  | .button b, _ch => (.button b, [])
  | .textField t, ch =>
    let r := t.on_keyboard_char ch
    (.textField r.1, r.2)
  | .scrollBar s, _ch => (.scrollBar s, [])

/-- Typed input stream consumed by `Widgets`: the five dispatch entry points
of src/ui.rs lines 126-145 with their payloads (the clipboard contents a
Ctrl+V would read are part of the keyboard-key input). -/
inductive Input
  | mouseButton (button : MouseButton) (state : ElementState) (pos : ℚ × ℚ)
  | mouseWheel (delta : MouseScrollDelta)
  | mouseMove (pos : ℚ × ℚ)
  | keyboardKey (input : KeyboardInput) (clipboard : String)
  | keyboardChar (ch : Char)

/-- The propagator closure `Widgets` builds for each input kind
(src/ui.rs lines 126-145). -/
def applyInput (inp : Input) (e : WidgetState) : WidgetState × List WidgetEvent :=
  match inp with
  | .mouseButton mb st pos => e.on_mouse_button mb st pos
  | .mouseWheel delta => e.on_mouse_wheel delta
  | .mouseMove pos => e.on_mouse_move pos
  | .keyboardKey input clip => e.on_keyboard_key input clip
  | .keyboardChar ch => e.on_keyboard_char ch

/-- The `Widgets` container (src/ui.rs lines 18-21). -/
structure Widgets where
  widgets : List WidgetState
  focus : Nat

/-- Constructor `Widgets::new` (src/ui.rs lines 24-29). -/
def Widgets.new : Widgets := ⟨[], 0⟩

/-- `Widgets::add` (src/ui.rs lines 63-65). -/
def Widgets.add (w : Widgets) (e : WidgetState) : Widgets :=
  { w with widgets := w.widgets ++ [e] }

/-- Body of the loop in `Widgets::change_focus` (src/ui.rs lines 84-90):
walks the widget list with its enumeration index, flips each widget whose
flag disagrees with `i == id`, and records a synthesized `FocusChanged` for
each flip, in list order. -/
def Widgets.changeFocusLoop (id : Nat) : List WidgetState → Nat →
    List WidgetState × List WidgetEvent
  | [], _ => ([], [])
  | e :: rest, i =>
    let focus : Bool := decide (i = id)
    let r := Widgets.changeFocusLoop id rest (i + 1)
    if focus = e.is_focused then
      (e :: r.1, r.2)
    else
      (e.set_focused focus :: r.1, .focusChanged e.get_id focus :: r.2)

/-- Translation of `Widgets::change_focus` (src/ui.rs lines 80-94): a `none`
argument leaves everything untouched and emits nothing. -/
def Widgets.change_focus (w : Widgets) (id : Option Nat) : Widgets × List WidgetEvent :=
  match id with
  | none => (w, [])
  | some id =>
    let r := Widgets.changeFocusLoop id w.widgets 0
    ({ widgets := r.1, focus := id }, r.2)

/-- Body of the loop in `Widgets::propagate_event` (src/ui.rs lines 111-121):
runs the propagator on each widget in order, keeps every non-`FocusChanged`
event, and records `some i` for the last widget index that emitted
`FocusChanged { focus: true }`. -/
def Widgets.propagateLoop (p : WidgetState → WidgetState × List WidgetEvent) :
    List WidgetState → Nat → List WidgetState × List WidgetEvent × Option Nat
  | [], _ => ([], [], none)
  | e :: rest, i =>
    let r := p e
    let rr := Widgets.propagateLoop p rest (i + 1)
    let thisFocus : Option Nat := if r.2.any WidgetEvent.isFocusTrue then some i else none
    let focus : Option Nat :=
      match rr.2.2 with
      | some j => some j
      | none => thisFocus
    (r.1 :: rr.1, (r.2.filter fun ev => ! ev.isFocusChanged) ++ rr.2.1, focus)

/-- Translation of `Widgets::propagate_event` (src/ui.rs lines 108-124):
loop over the widgets, then hand the recorded focus request (if any) to
`change_focus` and append its synthesized events. -/
def Widgets.propagate_event (w : Widgets) (p : WidgetState → WidgetState × List WidgetEvent) :
    Widgets × List WidgetEvent :=
  let r := Widgets.propagateLoop p w.widgets 0
  let cf := Widgets.change_focus { widgets := r.1, focus := w.focus } r.2.2
  (cf.1, r.2.1 ++ cf.2)

/-- One input dispatch through `Widgets` (the five public entry points all
reduce to `propagate_event` with the corresponding propagator). -/
def Widgets.dispatch (w : Widgets) (inp : Input) : Widgets × List WidgetEvent :=
  w.propagate_event (applyInput inp)

/-- Fold of a whole input sequence through `Widgets.dispatch`. -/
def Widgets.dispatchAll (w : Widgets) : List Input → Widgets
  | [] => w
  | inp :: rest => ((w.dispatch inp).1).dispatchAll rest

/-- Translation of `Widgets::tab_focus` (src/ui.rs lines 67-78). On an empty
collection the Rust code evaluates `self.focus % self.widgets.len()` with a
zero divisor and panics; the panic is modelled as `none`. The `-1` step uses
Rust's truncating `%` on `isize` (`Int.tmod`) followed by the negative
adjustment, exactly as in the source. -/
def Widgets.tab_focus (w : Widgets) (next : Bool) : Option (Widgets × List WidgetEvent) :=
  if w.widgets.length = 0 then
    none
  else
    let len := w.widgets.length
    let prev := w.focus % len
    let d : Int := cond next 1 (-1)
    let n0 : Int := ((w.focus : Int) + d).tmod (len : Int)
    let n1 : Int := if n0 < 0 then (len : Int) + n0 else n0
    let new := n1.toNat
    if prev ≠ new then
      some (w.change_focus (some new))
    else
      some (w, [])

/-- Iterate `tab_focus(true)` a given number of times, propagating the
panic marker. -/
def Widgets.tabN (w : Widgets) : Nat → Option Widgets
  | 0 => some w
  | n + 1 =>
    match w.tab_focus true with
    | none => none
    | some r => r.1.tabN n

/-- Number of widgets whose `is_focused()` flag is set. -/
def focusedCount (ws : List WidgetState) : Nat :=
  ws.countP WidgetState.is_focused

/-! Render layer: src/render.rs. -/

/-- Faults of the render layer; each constructor stands for one of the
panics in src/render.rs: `invalidState` for "Already drawing!" /
"Not drawing!" / the missing primitive type on submit, `capabilityMismatch`
for "Normal is not enabled..." / "Texture is not enabled...",
`indexOutOfRange` for "Illegal buffer index ...", `missingTextureUv` for the
`expect` on a vertex without uv in a textured session, and
`illegalBufferState` for the layout mismatch panic inside `draw`. -/
inductive Fault
  | invalidState
  | capabilityMismatch
  | indexOutOfRange
  | missingTextureUv
  | illegalBufferState
deriving DecidableEq, Repr

/-- Primitive topologies, after glium's `PrimitiveType` (the repository uses
`TriangleFan` and `LineLoop`; the others are carried for completeness). -/
inductive PrimitiveType
  | points
  | linesList
  | lineStrip
  | lineLoop
  | trianglesList
  | triangleStrip
  | triangleFan
deriving DecidableEq, Repr

/-- Input vertex, after `Vertex` in src/render.rs lines 26-32. -/
structure Vertex where
  pos : ℚ × ℚ × ℚ
  normal : Option (ℚ × ℚ × ℚ)
  color : Option (ℚ × ℚ × ℚ × ℚ)
  texture_uv : Option (ℚ × ℚ)
deriving DecidableEq, Repr

/-- Builder `Vertex::pos` (src/render.rs lines 35-42). -/
def Vertex.position (pos : ℚ × ℚ × ℚ) : Vertex :=
  { pos := pos, normal := none, color := none, texture_uv := none }

/-- Builder `Vertex::color` (src/render.rs lines 49-52). -/
def Vertex.withColor (v : Vertex) (c : ℚ × ℚ × ℚ × ℚ) : Vertex :=
  { v with color := some c }

/-- Builder `Vertex::normal` (src/render.rs lines 44-47). -/
def Vertex.withNormal (v : Vertex) (n : ℚ × ℚ × ℚ) : Vertex :=
  { v with normal := some n }

/-- Builder `Vertex::uv` (src/render.rs lines 54-57). -/
def Vertex.withUv (v : Vertex) (uv : ℚ × ℚ) : Vertex :=
  { v with texture_uv := some uv }

/-- Device-side plain layout, after `SimpleVertex` (src/render.rs 205-210). -/
structure SimpleVertex where
  pos : ℚ × ℚ × ℚ
  normal : ℚ × ℚ × ℚ
  color : ℚ × ℚ × ℚ × ℚ
deriving DecidableEq, Repr

/-- Device-side textured layout, after `TexturedVertex`
(src/render.rs 214-220). -/
structure TexturedVertex where
  pos : ℚ × ℚ × ℚ
  normal : ℚ × ℚ × ℚ
  color : ℚ × ℚ × ℚ × ℚ
  texture_uv : ℚ × ℚ
deriving DecidableEq, Repr

/-- Stored vertex, after `WrappedVertex` (src/render.rs 200-203). -/
inductive WrappedVertex
  | simple (v : SimpleVertex)
  | textured (v : TexturedVertex)
deriving DecidableEq, Repr

/-- The draw buffer, after `DrawBuffer` (src/render.rs lines 15-24). The
running offset `index` is a `u32` in Rust; it is modelled as `Nat` (no claim
exercises 32-bit wraparound). -/
structure DrawBuffer where
  capacity : Nat
  index : Nat
  vertices : List WrappedVertex
  indices : List Nat
  normal : Bool
  texture : Bool
  primitive_type : Option PrimitiveType
  drawing : Bool
deriving DecidableEq, Repr

/-- Constructor `DrawBuffer::with_capacity` (src/render.rs lines 92-103). -/
def DrawBuffer.with_capacity (c : Nat) : DrawBuffer :=
  { capacity := c, index := 0, vertices := [], indices := [],
    normal := false, texture := false, primitive_type := none, drawing := false }

/-- Constructor `DrawBuffer::new` (src/render.rs lines 73-75). -/
def DrawBuffer.mkNew : DrawBuffer :=
  DrawBuffer.with_capacity 0

/-- Translation of `DrawBuffer::start_drawing` (src/render.rs lines 105-114):
the "Already drawing!" panic becomes the `invalidState` fault. -/
def DrawBuffer.start_drawing (b : DrawBuffer) (pt : PrimitiveType) (normal texture : Bool) :
    Except Fault DrawBuffer :=
  if b.drawing = false then
    .ok { b with drawing := true, primitive_type := some pt,
                 normal := normal, texture := texture }
  else
    .error .invalidState

/-- Translation of `DrawBuffer::reset` (src/render.rs lines 148-154). -/
def DrawBuffer.reset (b : DrawBuffer) : DrawBuffer :=
  { b with index := 0, vertices := [], indices := [],
           primitive_type := none, drawing := false }

/-- One iteration of the vertex loop of `DrawBuffer::add_multiple_vertices`
(src/render.rs lines 161-184): capability checks in source order, then the
push into the layout selected by the session's texture flag. -/
def DrawBuffer.pushVertex (b : DrawBuffer) (v : Vertex) : Except Fault DrawBuffer :=
  let color := v.color.getD (1, 1, 1, 1)
  if b.normal = false ∧ v.normal.isSome then
    .error .capabilityMismatch
  else if b.texture = false ∧ v.texture_uv.isSome then
    .error .capabilityMismatch
  else if b.texture then
    match v.texture_uv with
    | some uv =>
      .ok { b with vertices := b.vertices ++
              [.textured { pos := v.pos, normal := v.normal.getD (1, 1, 1),
                           color := color, texture_uv := uv }] }
    | none => .error .missingTextureUv
  else
    .ok { b with vertices := b.vertices ++
            [.simple { pos := v.pos, normal := v.normal.getD (1, 1, 1), color := color }] }

/-- The whole vertex loop of `DrawBuffer::add_multiple_vertices`. -/
def DrawBuffer.pushVertices : DrawBuffer → List Vertex → Except Fault DrawBuffer
  | b, [] => .ok b
  | b, v :: rest =>
    match b.pushVertex v with
    | .ok b1 => b1.pushVertices rest
    | .error e => .error e

/-- The index loop of `DrawBuffer::add_multiple_vertices` (src/render.rs
lines 185-191): each local index must be `< offset` and is stored shifted by
the running offset `index`; otherwise the "Illegal buffer index" panic,
modelled as `indexOutOfRange`. -/
def DrawBuffer.pushIndices (offset : Nat) : DrawBuffer → List Nat → Except Fault DrawBuffer
  | b, [] => .ok b
  | b, i :: rest =>
    if i < offset then
      DrawBuffer.pushIndices offset { b with indices := b.indices ++ [b.index + i] } rest
    else
      .error .indexOutOfRange

/-- Translation of `DrawBuffer::add_multiple_vertices` (src/render.rs lines
156-193): guard on `drawing`, vertex loop, index loop, then the running
offset grows by the number of vertices of this call. -/
def DrawBuffer.add_multiple_vertices (b : DrawBuffer) (vertices : List Vertex)
    (indices : List Nat) : Except Fault DrawBuffer :=
  if b.drawing = false then
    .error .invalidState
  else
    let offset := vertices.length
    match b.pushVertices vertices with
    | .error e => .error e
    | .ok b1 =>
      match b1.pushIndices offset indices with
      | .error e => .error e
      | .ok b2 => .ok { b2 with index := b2.index + offset }

/-- Translation of `DrawBuffer::add_vertex` (src/render.rs lines 195-197). -/
def DrawBuffer.add_vertex (b : DrawBuffer) (v : Vertex) : Except Fault DrawBuffer :=
  b.add_multiple_vertices [v] [0]

/-- Projection of a stored vertex onto the plain layout (the match arms of
`draw`, src/render.rs lines 133-139). -/
def WrappedVertex.asSimple : WrappedVertex → Option SimpleVertex
  | .simple v => some v
  | .textured _ => none

/-- Projection of a stored vertex onto the textured layout (the match arms
of `draw`, src/render.rs lines 123-129). -/
def WrappedVertex.asTextured : WrappedVertex → Option TexturedVertex
  | .simple _ => none
  | .textured v => some v

/-- Payload of one submitted draw call: topology, indices, and the vertex
stream in one of the two concrete layouts. -/
inductive Submission
  | simple (pt : PrimitiveType) (vertices : List SimpleVertex) (indices : List Nat)
  | textured (pt : PrimitiveType) (vertices : List TexturedVertex) (indices : List Nat)
deriving DecidableEq, Repr

/-- Translation of `DrawBuffer::draw` (src/render.rs lines 116-146): fails
with `invalidState` when not drawing (the "Not drawing!" panic) or when the
primitive type is absent; fails with `illegalBufferState` when a stored
vertex does not match the session layout. Read-only: the buffer itself is
untouched. -/
def DrawBuffer.draw (b : DrawBuffer) : Except Fault Submission :=
  if b.drawing then
    match b.primitive_type with
    | none => .error .invalidState
    | some pt =>
      if b.texture then
        match (b.vertices.map WrappedVertex.asTextured).allSome with
        | some vs => .ok (.textured pt vs b.indices)
        | none => .error .illegalBufferState
      else
        match (b.vertices.map WrappedVertex.asSimple).allSome with
        | some vs => .ok (.simple pt vs b.indices)
        | none => .error .illegalBufferState
  else
    .error .invalidState

/-- Fold of a sequence of `add_multiple_vertices` calls, stopping at the
first fault. -/
def DrawBuffer.addAll : DrawBuffer → List (List Vertex × List Nat) → Except Fault DrawBuffer
  | b, [] => .ok b
  | b, (vs, is) :: rest =>
    match b.add_multiple_vertices vs is with
    | .ok b1 => b1.addAll rest
    | .error e => .error e

/-- Sum of the per-call index counts of a call sequence. -/
def sumIndexCounts (calls : List (List Vertex × List Nat)) : Nat :=
  (calls.map fun c => c.2.length).sum

/-! Canvas text anchoring: src/render.rs lines 396-417. -/

/-- Horizontal text anchor, after `TextAlignHorizontal` (src/render.rs
lines 424-426). -/
inductive TextAlignHorizontal
  | left
  | right
  | center
deriving DecidableEq, Repr

/-- Vertical text anchor, after `TextAlignVertical` (src/render.rs
lines 428-430). -/
inductive TextAlignVertical
  | top
  | bottom
  | center
deriving DecidableEq, Repr

/-- The anchor arithmetic of `Canvas::text` (src/render.rs lines 405-414):
given the requested anchor point `(x, y)` and the measured string bounds
`(w, h)` obtained from the Font Manager (whose module is outside the
rendering code under verification and enters only through this pair), the
origin actually handed to `draw_string`. -/
def Canvas.textDrawOrigin (x y w h : ℚ) (align_h : TextAlignHorizontal)
    (align_v : TextAlignVertical) : ℚ × ℚ :=
  (match align_h with
   | .left => x
   | .right => x - w
   | .center => x - w / 2,
   match align_v with
   | .top => y
   | .bottom => y - h
   | .center => y - h / 2)

/-! Theorems. -/

/-- C6: calling `tab_focus` (either direction) on an empty `Widgets`
collection does not degenerate to a no-op — the Rust code evaluates
`self.focus % self.widgets.len()` with a zero divisor, which panics;
the embedding returns the panic marker `none` instead of a no-op result. -/
theorem tab_focus_empty_panics (focus : Nat) (next : Bool) :
    (Widgets.mk [] focus).tab_focus next = none := by
  simp [Widgets.tab_focus]

/-- C7: `start_drawing` on a buffer that is already drawing (two starts
without an intervening `reset`, including after a `draw`, which is read-only
and leaves `drawing = true`) fails with the `InvalidState` fault, while
`start_drawing` on an idle buffer succeeds and fixes the session's topology
and capability flags. -/
theorem start_drawing_double_start (b : DrawBuffer) (pt : PrimitiveType) (n t : Bool) :
    (b.drawing = true → b.start_drawing pt n t = .error .invalidState) ∧
    (∀ s, b.draw = .ok s → b.start_drawing pt n t = .error .invalidState) ∧
    (b.drawing = false →
      b.start_drawing pt n t =
        .ok { b with drawing := true, primitive_type := some pt,
                     normal := n, texture := t }) := by
  refine ⟨fun h => ?_, fun s hs => ?_, fun h => ?_⟩
  · simp [DrawBuffer.start_drawing, h]
  · have hd : b.drawing = true := by
      by_contra hd
      simp only [Bool.not_eq_true] at hd
      simp [DrawBuffer.draw, hd] at hs
    simp [DrawBuffer.start_drawing, hd]
  · simp [DrawBuffer.start_drawing, h]

/-- Witness for C7 at concrete buffers: a fresh buffer is idle and starts
successfully; the started buffer refuses a second start. -/
theorem start_drawing_double_start_witness :
    DrawBuffer.mkNew.start_drawing .triangleFan false false =
      .ok { DrawBuffer.mkNew with drawing := true,
                                  primitive_type := some PrimitiveType.triangleFan,
                                  normal := false, texture := false } ∧
    ({ DrawBuffer.mkNew with drawing := true } : DrawBuffer).start_drawing
        .triangleFan false false = .error .invalidState :=
  ⟨(start_drawing_double_start DrawBuffer.mkNew .triangleFan false false).2.2 rfl,
   (start_drawing_double_start { DrawBuffer.mkNew with drawing := true }
      .triangleFan false false).1 rfl⟩

/-- C8: pushing a vertex carrying a normal into a drawing session started
with `has_normal = false` fails with the `CapabilityMismatch` fault, and
symmetrically for a texture coordinate in a session with
`has_texture = false` (the vertex is the first of its call; the two source
checks raise the same fault). -/
theorem add_vertex_capability_mismatch (b : DrawBuffer) (v : Vertex)
    (rest : List Vertex) (is : List Nat) (hdraw : b.drawing = true)
    (h : (b.normal = false ∧ v.normal.isSome) ∨
         (b.texture = false ∧ v.texture_uv.isSome)) :
    b.add_multiple_vertices (v :: rest) is = .error .capabilityMismatch := by
  have hpv : b.pushVertex v = .error .capabilityMismatch := by
    unfold DrawBuffer.pushVertex
    rcases h with ⟨h1, h2⟩ | ⟨h1, h2⟩
    · simp [h1, h2]
    · by_cases hn : b.normal = false ∧ v.normal.isSome = true
      · simp [hn]
      · simp [hn, h1, h2]
  unfold DrawBuffer.add_multiple_vertices DrawBuffer.pushVertices
  simp [hdraw, hpv]

/-- Witness for C8 at a concrete session and vertices: a session with both
capabilities off rejects a vertex with a normal and a vertex with a uv. -/
theorem add_vertex_capability_mismatch_witness :
    ({ DrawBuffer.mkNew with drawing := true } : DrawBuffer).add_multiple_vertices
        [(Vertex.position (0, 0, 0)).withNormal (1, 0, 0)] [0] =
      .error .capabilityMismatch ∧
    ({ DrawBuffer.mkNew with drawing := true } : DrawBuffer).add_multiple_vertices
        [(Vertex.position (0, 0, 0)).withUv (0, 1)] [0] =
      .error .capabilityMismatch :=
  ⟨add_vertex_capability_mismatch _ _ [] [0] rfl (Or.inl ⟨rfl, rfl⟩),
   add_vertex_capability_mismatch _ _ [] [0] rfl (Or.inr ⟨rfl, rfl⟩)⟩

/-- C9: `Canvas::text` offsets the draw origin by subtracting 0, the full
measured extent, or half of it for Left/Right/Center horizontal and
Top/Bottom/Center vertical anchors; in particular text at (100, 100) with
Center/Center anchors and measured bounds (20, 10) is drawn from (90, 95). -/
theorem canvas_text_anchor_math :
    (∀ x y w h : ℚ, ∀ av,
      (Canvas.textDrawOrigin x y w h .left av).1 = x - 0 ∧
      (Canvas.textDrawOrigin x y w h .right av).1 = x - w ∧
      (Canvas.textDrawOrigin x y w h .center av).1 = x - w / 2) ∧
    (∀ x y w h : ℚ, ∀ ah,
      (Canvas.textDrawOrigin x y w h ah .top).2 = y - 0 ∧
      (Canvas.textDrawOrigin x y w h ah .bottom).2 = y - h ∧
      (Canvas.textDrawOrigin x y w h ah .center).2 = y - h / 2) ∧
    Canvas.textDrawOrigin 100 100 20 10 .center .center = (90, 95) := by
  refine ⟨fun x y w h av => ⟨by ring_nf; rfl, rfl, rfl⟩,
          fun x y w h ah => ⟨by cases ah <;> · ring_nf; rfl, by cases ah <;> rfl,
                             by cases ah <;> rfl⟩, ?_⟩
  show ((100 : ℚ) - 20 / 2, (100 : ℚ) - 10 / 2) = (90, 95)
  norm_num

/-- Effect of one successful `pushVertex`: one vertex appended, everything
else untouched. -/
theorem pushVertex_ok {b b' : DrawBuffer} {v : Vertex} (h : b.pushVertex v = .ok b') :
    b'.vertices.length = b.vertices.length + 1 ∧ b'.indices = b.indices ∧
      b'.index = b.index ∧ b'.drawing = b.drawing := by
  unfold DrawBuffer.pushVertex at h
  split_ifs at h with h1 h2 h3
  · cases huv : v.texture_uv with
    | none => rw [huv] at h; cases h
    | some uv =>
      rw [huv] at h
      simp only [Except.ok.injEq] at h
      subst h
      simp
  · simp only [Except.ok.injEq] at h
    subst h
    simp

/-- Effect of a successful vertex loop: as many vertices appended as were
given, everything else untouched. -/
theorem pushVertices_ok : ∀ {vs : List Vertex} {b b' : DrawBuffer},
    b.pushVertices vs = .ok b' →
    b'.vertices.length = b.vertices.length + vs.length ∧ b'.indices = b.indices ∧
      b'.index = b.index ∧ b'.drawing = b.drawing := by
  intro vs
  induction vs with
  | nil =>
    intro b b' h
    unfold DrawBuffer.pushVertices at h
    simp only [Except.ok.injEq] at h
    subst h
    simp
  | cons v rest ih =>
    intro b b' h
    unfold DrawBuffer.pushVertices at h
    cases hv : b.pushVertex v with
    | error e => rw [hv] at h; cases h
    | ok b1 =>
      rw [hv] at h
      obtain ⟨l1, i1, x1, d1⟩ := pushVertex_ok hv
      obtain ⟨l2, i2, x2, d2⟩ := ih h
      refine ⟨?_, i2.trans i1, x2.trans x1, d2.trans d1⟩
      rw [l2, l1]
      simp only [List.length_cons]
      omega

/-- Effect of a successful index loop: as many indices appended as were
given, each new entry below `index + offset`, everything else untouched. -/
theorem pushIndices_ok : ∀ {is : List Nat} {b b' : DrawBuffer} {offset : Nat},
    DrawBuffer.pushIndices offset b is = .ok b' →
    b'.vertices = b.vertices ∧ b'.index = b.index ∧ b'.drawing = b.drawing ∧
      b'.indices.length = b.indices.length + is.length ∧
      ∀ x ∈ b'.indices, x ∈ b.indices ∨ x < b.index + offset := by
  intro is
  induction is with
  | nil =>
    intro b b' offset h
    unfold DrawBuffer.pushIndices at h
    simp only [Except.ok.injEq] at h
    subst h
    exact ⟨rfl, rfl, rfl, rfl, fun x hx => Or.inl hx⟩
  | cons i rest ih =>
    intro b b' offset h
    unfold DrawBuffer.pushIndices at h
    split_ifs at h with hlt
    obtain ⟨hv, hx, hd, hl, hm⟩ := ih h
    refine ⟨hv, hx, hd, ?_, ?_⟩
    · simp at hl
      simp [hl]
      omega
    · intro x hx'
      rcases hm x hx' with hmem | hbound
      · simp only [List.mem_append, List.mem_singleton] at hmem
        rcases hmem with hmem | rfl
        · exact Or.inl hmem
        · exact Or.inr (by omega)
      · simp only at hbound
        exact Or.inr hbound

/-- Effect of one successful `add_multiple_vertices` call on the well-formed
session invariant (`index` tracks the stored vertex count, every stored
index points below it). -/
theorem add_multiple_vertices_ok {b b' : DrawBuffer} {vs : List Vertex} {is : List Nat}
    (h : b.add_multiple_vertices vs is = .ok b')
    (hidx : b.index = b.vertices.length)
    (hbound : ∀ x ∈ b.indices, x < b.vertices.length) :
    b'.index = b'.vertices.length ∧ (∀ x ∈ b'.indices, x < b'.vertices.length) ∧
      b'.indices.length = b.indices.length + is.length ∧
      b'.vertices.length = b.vertices.length + vs.length ∧ b'.drawing = b.drawing := by
  unfold DrawBuffer.add_multiple_vertices at h
  split_ifs at h with hd
  cases hpv : b.pushVertices vs with
  | error e => simp [hpv] at h
  | ok b1 =>
    simp only [hpv] at h
    cases hpi : DrawBuffer.pushIndices vs.length b1 is with
    | error e => simp [hpi] at h
    | ok b2 =>
      simp only [hpi, Except.ok.injEq] at h
      subst h
      obtain ⟨l1, i1, x1, d1⟩ := pushVertices_ok hpv
      obtain ⟨v2, x2, d2, l2, m2⟩ := pushIndices_ok hpi
      simp only
      refine ⟨?_, ?_, ?_, ?_, ?_⟩
      · rw [x2, x1, hidx, v2, l1]
      · intro x hx
        rcases m2 x hx with hmem | hb
        · rw [i1] at hmem
          have := hbound x hmem
          rw [v2, l1]
          omega
        · rw [x1, hidx] at hb
          rw [v2, l1]
          omega
      · rw [l2, i1]
      · rw [v2, l1]
      · rw [d2, d1]

/-- C2: across any sequence of successful `add_multiple_vertices` calls in
one drawing session (the buffer starts with no accumulated indices and with
the running offset equal to its stored vertex count — true right after
`start_drawing` on a fresh or freshly `reset` buffer), the accumulated index
count equals the sum of the per-call index counts and every accumulated
index is strictly below the accumulated vertex count. -/
theorem draw_buffer_index_validity : ∀ (calls : List (List Vertex × List Nat))
    (b0 b1 : DrawBuffer), b0.addAll calls = .ok b1 →
    b0.index = b0.vertices.length → b0.indices = [] →
    b1.indices.length = sumIndexCounts calls ∧
      ∀ x ∈ b1.indices, x < b1.vertices.length := by
  have main : ∀ (calls : List (List Vertex × List Nat)) (b0 b1 : DrawBuffer),
      b0.addAll calls = .ok b1 →
      b0.index = b0.vertices.length → (∀ x ∈ b0.indices, x < b0.vertices.length) →
      b1.indices.length = b0.indices.length + sumIndexCounts calls ∧
        ∀ x ∈ b1.indices, x < b1.vertices.length := by
    intro calls
    induction calls with
    | nil =>
      intro b0 b1 h hidx hbound
      unfold DrawBuffer.addAll at h
      simp only [Except.ok.injEq] at h
      subst h
      exact ⟨by simp [sumIndexCounts], hbound⟩
    | cons c rest ih =>
      intro b0 b1 h hidx hbound
      obtain ⟨vs, is⟩ := c
      unfold DrawBuffer.addAll at h
      cases ha : b0.add_multiple_vertices vs is with
      | error e => rw [ha] at h; cases h
      | ok bmid =>
        rw [ha] at h
        obtain ⟨hidx', hbound', hlen', _, _⟩ := add_multiple_vertices_ok ha hidx hbound
        obtain ⟨hl, hb⟩ := ih bmid b1 h hidx' hbound'
        refine ⟨?_, hb⟩
        rw [hl, hlen']
        simp [sumIndexCounts]
        omega
  intro calls b0 b1 h hidx hempty
  obtain ⟨hl, hb⟩ := main calls b0 b1 h hidx (by rw [hempty]; intro x hx; cases hx)
  rw [hempty] at hl
  exact ⟨by simpa using hl, hb⟩

/-- Concrete started session for the C2 witness. -/
def c2Buffer : DrawBuffer :=
  { DrawBuffer.mkNew with drawing := true,
                          primitive_type := some PrimitiveType.triangleFan }

/-- Concrete call sequence for the C2 witness: two vertices with three
local indices, then one vertex with one local index. -/
def c2Calls : List (List Vertex × List Nat) :=
  [([Vertex.position (0, 0, 0), Vertex.position (1, 0, 0)], [0, 1, 1]),
   ([Vertex.position (0, 1, 0)], [0])]

/-- Concrete accumulated buffer the C2 witness run produces. -/
def c2Result : DrawBuffer :=
  { capacity := 0, index := 3,
    vertices := [.simple { pos := (0, 0, 0), normal := (1, 1, 1), color := (1, 1, 1, 1) },
                 .simple { pos := (1, 0, 0), normal := (1, 1, 1), color := (1, 1, 1, 1) },
                 .simple { pos := (0, 1, 0), normal := (1, 1, 1), color := (1, 1, 1, 1) }],
    indices := [0, 1, 1, 2],
    normal := false, texture := false,
    primitive_type := some PrimitiveType.triangleFan, drawing := true }

/-- Witness for C2 on the concrete run: four accumulated indices (the sum of
the per-call counts) and every index below the three accumulated vertices. -/
theorem draw_buffer_index_validity_witness :
    c2Buffer.addAll c2Calls = .ok c2Result ∧
    c2Result.indices.length = sumIndexCounts c2Calls ∧
    ∀ x ∈ c2Result.indices, x < c2Result.vertices.length :=
  ⟨rfl,
   (draw_buffer_index_validity c2Calls c2Buffer c2Result rfl rfl rfl).1,
   (draw_buffer_index_validity c2Calls c2Buffer c2Result rfl rfl rfl).2⟩

/-- Setting the focus flag overwrites it, on every widget variant. -/
theorem is_focused_set_focused (e : WidgetState) (f : Bool) :
    (e.set_focused f).is_focused = f := by
  cases e <;> rfl

/-- Setting the focus flag to its current value is the identity. -/
theorem set_focused_self (e : WidgetState) : e.set_focused e.is_focused = e := by
  cases e <;> rfl

/-- Consecutive focus-flag writes collapse to the last one. -/
theorem set_focused_set_focused (e : WidgetState) (a b : Bool) :
    (e.set_focused a).set_focused b = e.set_focused b := by
  cases e <;> rfl

/-- Soundness condition on one widget handler result: a widget whose flag is
set after the handler either already had it set, or emitted a
`FocusChanged { focus: true }` request in the very same call. -/
def focusOk (e : WidgetState) (r : WidgetState × List WidgetEvent) : Prop :=
  r.1.is_focused = true → e.is_focused = true ∨ r.2.any WidgetEvent.isFocusTrue = true

/-- Every handler of every widget variant satisfies `focusOk` for every
input: no widget grants itself externally-visible focus silently. -/
theorem applyInput_focusOk (inp : Input) (e : WidgetState) : focusOk e (applyInput inp e) := by
  cases inp <;> cases e <;>
    simp only [applyInput, WidgetState.on_mouse_button, WidgetState.on_mouse_wheel,
      WidgetState.on_mouse_move, WidgetState.on_keyboard_key, WidgetState.on_keyboard_char,
      Button.on_mouse_button, Button.on_mouse_move, Button.on_keyboard_key,
      TextField.on_mouse_button, TextField.on_keyboard_key, TextField.on_keyboard_char,
      ScrollBar.on_mouse_button, ScrollBar.on_mouse_move, focusOk] <;>
    (repeat' split) <;>
    simp_all [WidgetState.is_focused, WidgetEvent.isFocusTrue]

/-- When the propagation loop records no focus request, no widget's flag can
have gone from unset to set, so the focused count does not grow. -/
theorem propagateLoop_none_count (p : WidgetState → WidgetState × List WidgetEvent)
    (hp : ∀ e, focusOk e (p e)) :
    ∀ (ws : List WidgetState) (i : Nat),
      (Widgets.propagateLoop p ws i).2.2 = none →
      focusedCount (Widgets.propagateLoop p ws i).1 ≤ focusedCount ws := by
  intro ws
  induction ws with
  | nil => intro i _; simp [Widgets.propagateLoop]
  | cons e rest ih =>
    intro i hnone
    simp only [Widgets.propagateLoop] at hnone ⊢
    cases hrr : (Widgets.propagateLoop p rest (i + 1)).2.2 with
    | some j => rw [hrr] at hnone; cases hnone
    | none =>
      rw [hrr] at hnone
      have hany : (p e).2.any WidgetEvent.isFocusTrue = false := by
        by_contra hc
        simp only [Bool.not_eq_false] at hc
        rw [if_pos hc] at hnone
        cases hnone
      have hthis : (if (p e).2.any WidgetEvent.isFocusTrue then some i else none) = none := by
        rw [hany]; rfl
      have hle : (if (p e).1.is_focused then 1 else 0) ≤ (if e.is_focused then 1 else 0) := by
        cases hf : (p e).1.is_focused with
        | false => simp
        | true =>
          rcases hp e hf with hold | hemit
          · simp [hold]
          · rw [hemit] at hany; cases hany
      have hrec := ih (i + 1) hrr
      simp only [focusedCount, List.countP_cons] at hrec ⊢
      omega

/-- The widget list `change_focus (some id)` produces: every widget's flag
rewritten to "my position equals id". -/
def setOnlyFrom (id : Nat) : List WidgetState → Nat → List WidgetState
  | [], _ => []
  | e :: rest, i => e.set_focused (decide (i = id)) :: setOnlyFrom id rest (i + 1)

/-- The widget-list component of the `change_focus` loop is exactly
`setOnlyFrom`. -/
theorem changeFocusLoop_widgets (id : Nat) :
    ∀ (ws : List WidgetState) (i : Nat),
      (Widgets.changeFocusLoop id ws i).1 = setOnlyFrom id ws i := by
  intro ws
  induction ws with
  | nil => intro i; rfl
  | cons e rest ih =>
    intro i
    simp only [Widgets.changeFocusLoop, setOnlyFrom]
    split_ifs with h
    · refine List.cons_eq_cons.mpr ⟨?_, ih (i + 1)⟩
      rw [h, set_focused_self]
    · exact List.cons_eq_cons.mpr ⟨rfl, ih (i + 1)⟩

/-- Positions strictly past the target contribute no focused widget. -/
theorem setOnlyFrom_count_past (id : Nat) :
    ∀ (ws : List WidgetState) (i : Nat), id < i →
      focusedCount (setOnlyFrom id ws i) = 0 := by
  intro ws
  induction ws with
  | nil => intro i _; rfl
  | cons e rest ih =>
    intro i hi
    simp only [setOnlyFrom, focusedCount, List.countP_cons, is_focused_set_focused]
    have hd : decide (i = id) = false := by simp; omega
    rw [hd]
    simp only [focusedCount] at ih
    rw [ih (i + 1) (by omega)]
    simp

/-- After `change_focus (some id)` at most one widget is focused: at most
one position equals the target. -/
theorem setOnlyFrom_count_le_one (id : Nat) :
    ∀ (ws : List WidgetState) (i : Nat), focusedCount (setOnlyFrom id ws i) ≤ 1 := by
  intro ws
  induction ws with
  | nil => intro i; simp [setOnlyFrom, focusedCount]
  | cons e rest ih =>
    intro i
    simp only [setOnlyFrom, focusedCount, List.countP_cons, is_focused_set_focused]
    by_cases hi : i = id
    · rw [hi]
      have h0 := setOnlyFrom_count_past id rest (id + 1) (by omega)
      simp only [focusedCount] at h0
      rw [h0]
      simp
    · have := ih (i + 1)
      simp only [focusedCount] at this
      simp only [decide_eq_true_eq]
      rw [if_neg hi]
      omega

/-- One `propagate_event` dispatch preserves focus exclusivity, for any
propagator whose per-widget results satisfy `focusOk`. -/
theorem propagate_event_count (w : Widgets) (p : WidgetState → WidgetState × List WidgetEvent)
    (hp : ∀ e, focusOk e (p e)) (hw : focusedCount w.widgets ≤ 1) :
    focusedCount (w.propagate_event p).1.widgets ≤ 1 := by
  unfold Widgets.propagate_event
  cases hfoc : (Widgets.propagateLoop p w.widgets 0).2.2 with
  | none =>
    simp only [hfoc, Widgets.change_focus]
    exact le_trans (propagateLoop_none_count p hp w.widgets 0 hfoc) hw
  | some id =>
    simp only [hfoc, Widgets.change_focus]
    rw [changeFocusLoop_widgets]
    exact setOnlyFrom_count_le_one id _ 0

/-- C1: focus exclusivity. For every `Widgets` collection satisfying the
invariant (in particular any collection built with `new`/`add`, whose
widgets all start unfocused) and every sequence of input dispatches through
the five entry points, after each `propagate_event` completes at most one
widget has `is_focused() = true`. -/
theorem widgets_focus_exclusivity (w : Widgets) (hw : focusedCount w.widgets ≤ 1)
    (inputs : List Input) : focusedCount (w.dispatchAll inputs).widgets ≤ 1 := by
  induction inputs generalizing w with
  | nil => exact hw
  | cons inp rest ih =>
    exact ih (w.dispatch inp).1
      (propagate_event_count w (applyInput inp) (applyInput_focusOk inp) hw)

/-- Concrete two-button collection for the C1 witness. -/
def c1W : Widgets :=
  ⟨[.button (Button.new "a" 0 0 10 10), .button (Button.new "b" 20 0 10 10)], 0⟩

/-- Concrete input sequence for the C1 witness: hover the first button, then
press it. -/
def c1Inputs : List Input :=
  [.mouseMove (5, 5), .mouseButton .left .pressed (5, 5)]

/-- Witness for C1: a concrete collection satisfying the invariant, kept
exclusive across a concrete dispatch sequence. -/
theorem widgets_focus_exclusivity_witness :
    focusedCount c1W.widgets ≤ 1 ∧ focusedCount (c1W.dispatchAll c1Inputs).widgets ≤ 1 :=
  ⟨by decide, widgets_focus_exclusivity c1W (by decide) c1Inputs⟩

/-- Every event kept by the propagation loop itself is a non-`FocusChanged`
event: widget-emitted `FocusChanged` of either polarity is filtered out. -/
theorem propagateLoop_events_no_focus (p : WidgetState → WidgetState × List WidgetEvent) :
    ∀ (ws : List WidgetState) (i : Nat) (ev : WidgetEvent),
      ev ∈ (Widgets.propagateLoop p ws i).2.1 → ev.isFocusChanged = false := by
  intro ws
  induction ws with
  | nil => intro i ev h; cases h
  | cons e rest ih =>
    intro i ev h
    simp only [Widgets.propagateLoop, List.mem_append, List.mem_filter] at h
    rcases h with ⟨_, hkeep⟩ | hrec
    · simpa using hkeep
    · exact ih (i + 1) ev hrec

/-- C10: every `FocusChanged` event returned by a `Widgets` dispatch was
synthesized by the container's `change_focus`, and a `FocusChanged` can only
be returned when some widget requested focus (`focus: true`) in the same
dispatch round — in particular a widget-emitted `FocusChanged {focus:false}`
(such as a ScrollBar's on left-button release) is dropped, and a focus loss
is reported only when another widget gained focus in that round. -/
theorem focus_events_synthesized_centrally (w : Widgets) (inp : Input) (id : String)
    (f : Bool)
    (h : WidgetEvent.focusChanged id f ∈ (w.dispatch inp).2) :
    (∃ j, (Widgets.propagateLoop (applyInput inp) w.widgets 0).2.2 = some j) ∧
    WidgetEvent.focusChanged id f ∈
      (Widgets.change_focus
        ⟨(Widgets.propagateLoop (applyInput inp) w.widgets 0).1, w.focus⟩
        (Widgets.propagateLoop (applyInput inp) w.widgets 0).2.2).2 := by
  unfold Widgets.dispatch Widgets.propagate_event at h
  simp only [List.mem_append] at h
  rcases h with hloop | hcf
  · have := propagateLoop_events_no_focus (applyInput inp) w.widgets 0 _ hloop
    simp [WidgetEvent.isFocusChanged] at this
  · refine ⟨?_, hcf⟩
    cases hfoc : (Widgets.propagateLoop (applyInput inp) w.widgets 0).2.2 with
    | none =>
      rw [hfoc] at hcf
      simp [Widgets.change_focus] at hcf
    | some j => exact ⟨j, rfl⟩

/-- Concrete collection for the C10 witness: one button already hovered. -/
def c10W : Widgets :=
  ⟨[.button { id := "btn", bounds := (0, 0, 10, 10), pressed := false,
              hover := true, focused := false }], 0⟩

/-- Witness for C10: pressing the hovered button returns a `FocusChanged`
event, and indeed a widget requested focus in that round and the event is
part of the `change_focus` output. -/
theorem focus_events_synthesized_centrally_witness :
    WidgetEvent.focusChanged "btn" true ∈
      (c10W.dispatch (.mouseButton .left .pressed (5, 5))).2 ∧
    (∃ j, (Widgets.propagateLoop (applyInput (.mouseButton .left .pressed (5, 5)))
        c10W.widgets 0).2.2 = some j) :=
  ⟨by decide,
   (focus_events_synthesized_centrally c10W (.mouseButton .left .pressed (5, 5))
      "btn" true (by decide)).1⟩

/-- `setOnlyFrom` preserves the list length. -/
theorem setOnlyFrom_length (id : Nat) :
    ∀ (ws : List WidgetState) (i : Nat), (setOnlyFrom id ws i).length = ws.length := by
  intro ws
  induction ws with
  | nil => intro i; rfl
  | cons e rest ih =>
    intro i
    simp only [setOnlyFrom, List.length_cons, ih (i + 1)]

/-- Rewriting all focus flags twice keeps only the second pass. -/
theorem setOnlyFrom_setOnlyFrom (a b : Nat) :
    ∀ (ws : List WidgetState) (i : Nat),
      setOnlyFrom a (setOnlyFrom b ws i) i = setOnlyFrom a ws i := by
  intro ws
  induction ws with
  | nil => intro i; rfl
  | cons e rest ih =>
    intro i
    simp only [setOnlyFrom, set_focused_set_focused, List.cons.injEq, true_and]
    exact ih (i + 1)

/-- A list whose flags already are "my position equals id" is unchanged by
`setOnlyFrom`. -/
theorem setOnlyFrom_eq_self (id : Nat) :
    ∀ (ws : List WidgetState) (i : Nat),
      (∀ k, (hk : k < ws.length) → (ws.get ⟨k, hk⟩).is_focused = decide (i + k = id)) →
      setOnlyFrom id ws i = ws := by
  intro ws
  induction ws with
  | nil => intro i _; rfl
  | cons e rest ih =>
    intro i h
    simp only [setOnlyFrom, List.cons.injEq]
    constructor
    · have h0 := h 0 (by simp)
      simp only [List.get, Nat.add_zero] at h0
      rw [← h0, set_focused_self]
    · exact ih (i + 1) fun k hk => by
        have := h (k + 1) (by simp; omega)
        simpa [Nat.add_assoc, Nat.add_comm 1 k] using this

/-- Normalized container state: focus index `j` with exactly the widget at
`j` flagged (the state `change_focus (some j)` leaves behind). -/
def normState (ws : List WidgetState) (j : Nat) : Widgets :=
  ⟨setOnlyFrom j ws 0, j⟩

/-- One forward `tab_focus` step on a normalized state with at least two
widgets advances the focus index cyclically by one. -/
theorem tab_focus_norm (ws : List WidgetState) (j : Nat) (hlen : 2 ≤ ws.length)
    (hj : j < ws.length) :
    ((normState ws j).tab_focus true).map Prod.fst =
      some (normState ws ((j + 1) % ws.length)) := by
  have hL : (setOnlyFrom j ws 0).length = ws.length := setOnlyFrom_length j ws 0
  have h0 : ¬ (ws.length = 0) := by omega
  have hprev : j % ws.length = j := Nat.mod_eq_of_lt hj
  have htm : ((j : Int) + Bool.rec (-1) 1 true).tmod ((ws.length : Int)) =
      (((j + 1) % ws.length : Nat) : Int) := by
    show ((j : Int) + 1).tmod ((ws.length : Int)) = (((j + 1) % ws.length : Nat) : Int)
    rw [show (j : Int) + 1 = ((j + 1 : Nat) : Int) by push_cast; ring, ← Int.ofNat_tmod]
  have hne : j ≠ (j + 1) % ws.length := by
    rcases Nat.lt_or_ge (j + 1) ws.length with hlt | hge
    · rw [Nat.mod_eq_of_lt hlt]; omega
    · have he : j + 1 = ws.length := by omega
      rw [he, Nat.mod_self]; omega
  simp only [normState, Widgets.tab_focus, hL, h0, if_false, cond_true, hprev]
  rw [show ((j : Int) + 1).tmod ((ws.length : Int)) = (((j + 1) % ws.length : Nat) : Int) from htm]
  have hnn : ¬ ((((j + 1) % ws.length : Nat) : Int) < 0) := by omega
  rw [if_neg hnn]
  simp only [Int.toNat_ofNat]
  rw [if_pos hne]
  simp [Widgets.change_focus, changeFocusLoop_widgets, setOnlyFrom_setOnlyFrom]

/-- Iterating forward `tab_focus` from a normalized state adds the step
count to the focus index, modulo the collection size. -/
theorem tabN_norm (ws : List WidgetState) (hlen : 2 ≤ ws.length) :
    ∀ (k j : Nat), j < ws.length →
      (normState ws j).tabN k = some (normState ws ((j + k) % ws.length)) := by
  intro k
  induction k with
  | zero =>
    intro j hj
    show some (normState ws j) = some (normState ws ((j + 0) % ws.length))
    rw [Nat.add_zero, Nat.mod_eq_of_lt hj]
  | succ k ih =>
    intro j hj
    have hstep := tab_focus_norm ws j hlen hj
    cases htf : (normState ws j).tab_focus true with
    | none => rw [htf] at hstep; cases hstep
    | some r =>
      rw [htf] at hstep
      simp at hstep
      simp only [Widgets.tabN, htf, hstep]
      rw [ih ((j + 1) % ws.length) (Nat.mod_lt _ (by omega))]
      rw [Nat.mod_add_mod, Nat.add_assoc, Nat.add_comm 1 k]

/-- C5: tab-focus cycling identity. On a non-empty collection of `N` widgets
whose focus index is valid and points at the uniquely focused widget,
calling `tab_focus(true)` `N` consecutive times returns the collection to
exactly its original state (original focus index, original flags). -/
theorem tab_focus_cycle (w : Widgets) (hpos : 0 < w.widgets.length)
    (hfocus : w.focus < w.widgets.length)
    (hflags : ∀ k, (hk : k < w.widgets.length) →
      (w.widgets.get ⟨k, hk⟩).is_focused = decide (k = w.focus)) :
    w.tabN w.widgets.length = some w := by
  have hself : setOnlyFrom w.focus w.widgets 0 = w.widgets :=
    setOnlyFrom_eq_self w.focus w.widgets 0 fun k hk => by
      rw [hflags k hk]; simp
  rcases Nat.lt_or_ge w.widgets.length 2 with h1 | h2
  · have hlen1 : w.widgets.length = 1 := by omega
    have hf0 : w.focus = 0 := by omega
    have htf : w.tab_focus true = some (w, []) := by
      simp only [Widgets.tab_focus, hlen1, cond_true]
      have ht : ((w.focus : Int) + 1).tmod (((1 : Nat)) : Int) = ((0 : Nat) : Int) := by
        rw [show (w.focus : Int) + 1 = ((w.focus + 1 : Nat) : Int) by push_cast; ring,
           ← Int.ofNat_tmod]
        simp
      rw [if_neg (by omega : ¬ (1 = 0)), ht]
      simp [Nat.mod_one]
    rw [hlen1]
    simp only [Widgets.tabN, htf]
  · have hw : w = normState w.widgets w.focus := by
      cases w with
      | mk ws f => simp only [normState] at hself ⊢; rw [hself]
    have hT := tabN_norm w.widgets h2 w.widgets.length w.focus hfocus
    rw [Nat.add_mod_right, Nat.mod_eq_of_lt hfocus, ← hw] at hT
    exact hT

/-- Concrete three-button collection for the C5 witness: focus index 1,
middle button focused. -/
def c5W : Widgets :=
  ⟨[.button (Button.new "a" 0 0 10 10),
    .button { Button.new "b" 20 0 10 10 with focused := true },
    .button (Button.new "c" 40 0 10 10)], 1⟩

/-- Witness for C5: three `tab_focus(true)` calls on the three-widget
collection restore it exactly. -/
theorem tab_focus_cycle_witness :
    0 < c5W.widgets.length ∧ c5W.focus < c5W.widgets.length ∧
      c5W.tabN c5W.widgets.length = some c5W :=
  ⟨by decide, by decide, tab_focus_cycle c5W (by decide) (by decide) (by decide)⟩

/-- Fresh single-button collection (the state `Widgets::new` plus `add` of
`Button::new` produces). -/
def buttonStart (id : String) (bounds : ℚ × ℚ × ℚ × ℚ) : Widgets :=
  ⟨[.button { id := id, bounds := bounds, pressed := false, hover := false,
              focused := false }], 0⟩

/-- The single-button collection after the cursor moved over the button. -/
def c4w1 (id : String) (bounds : ℚ × ℚ × ℚ × ℚ) : Widgets :=
  ⟨[.button { id := id, bounds := bounds, pressed := false, hover := true,
              focused := false }], 0⟩

/-- The single-button collection after a left press while hovered. -/
def c4w2 (id : String) (bounds : ℚ × ℚ × ℚ × ℚ) : Widgets :=
  ⟨[.button { id := id, bounds := bounds, pressed := true, hover := true,
              focused := true }], 0⟩

/-- C4: Button click scenario. Hovering then left-pressing a fresh button
returns `FocusChanged {focus:true}` (synthesized on the press dispatch);
a left release while still hovered returns `ButtonClicked {id}`; if the
cursor first moves outside the bounds, the release returns no event at all
(in particular no `ButtonClicked`). -/
theorem button_click_scenario (id : String) (bounds : ℚ × ℚ × ℚ × ℚ) (pIn pOut : ℚ × ℚ)
    (hin : is_mouse_over bounds pIn = true) (hout : is_mouse_over bounds pOut = false) :
    ((buttonStart id bounds).dispatch (.mouseMove pIn) = (c4w1 id bounds, [])) ∧
    ((c4w1 id bounds).dispatch (.mouseButton .left .pressed pIn)
      = (c4w2 id bounds, [.focusChanged id true])) ∧
    (((c4w2 id bounds).dispatch (.mouseButton .left .released pIn)).2
      = [.buttonClicked id]) ∧
    ((((c4w2 id bounds).dispatch (.mouseMove pOut)).1.dispatch
        (.mouseButton .left .released pOut)).2 = []) := by
  have hmove : (c4w2 id bounds).dispatch (.mouseMove pOut) =
      (⟨[.button { id := id, bounds := bounds, pressed := true, hover := false,
                   focused := true }], 0⟩, []) := by
    simp [c4w2, Widgets.dispatch, Widgets.propagate_event, Widgets.propagateLoop,
          applyInput, WidgetState.on_mouse_move, Button.on_mouse_move, hout,
          Widgets.change_focus, Widgets.changeFocusLoop, WidgetState.is_focused,
          WidgetState.set_focused, WidgetState.get_id]
  refine ⟨?_, ?_, ?_, ?_⟩
  · simp [buttonStart, c4w1, Widgets.dispatch, Widgets.propagate_event,
          Widgets.propagateLoop, applyInput, WidgetState.on_mouse_move,
          Button.on_mouse_move, hin, Widgets.change_focus]
  · simp [c4w1, c4w2, Widgets.dispatch, Widgets.propagate_event, Widgets.propagateLoop,
          applyInput, WidgetState.on_mouse_button, Button.on_mouse_button,
          WidgetEvent.isFocusTrue, WidgetEvent.isFocusChanged, Widgets.change_focus,
          Widgets.changeFocusLoop, WidgetState.is_focused, WidgetState.set_focused,
          WidgetState.get_id]
  · simp [c4w2, Widgets.dispatch, Widgets.propagate_event, Widgets.propagateLoop,
          applyInput, WidgetState.on_mouse_button, Button.on_mouse_button,
          WidgetEvent.isFocusTrue, WidgetEvent.isFocusChanged, Widgets.change_focus,
          Widgets.changeFocusLoop, WidgetState.is_focused, WidgetState.set_focused,
          WidgetState.get_id]
  · rw [hmove]
    simp [Widgets.dispatch, Widgets.propagate_event, Widgets.propagateLoop,
          applyInput, WidgetState.on_mouse_button, Button.on_mouse_button,
          Widgets.change_focus]

/-- Witness for C4 at a concrete button and concrete cursor positions. -/
theorem button_click_scenario_witness :
    is_mouse_over (0, 0, 10, 10) (5, 5) = true ∧
    is_mouse_over (0, 0, 10, 10) (50, 50) = false ∧
    (((c4w2 "btn" (0, 0, 10, 10)).dispatch (.mouseButton .left .released (5, 5))).2
      = [.buttonClicked "btn"]) ∧
    ((((c4w2 "btn" (0, 0, 10, 10)).dispatch (.mouseMove (50, 50))).1.dispatch
        (.mouseButton .left .released (50, 50))).2 = []) := by
  have hin : is_mouse_over (0, 0, 10, 10) ((5 : ℚ), (5 : ℚ)) = true := by
    simp [is_mouse_over]
    norm_num
  have hout : is_mouse_over (0, 0, 10, 10) ((50 : ℚ), (50 : ℚ)) = false := by
    simp [is_mouse_over]
    norm_num
  have h := button_click_scenario "btn" (0, 0, 10, 10) (5, 5) (50, 50) hin hout
  exact ⟨hin, hout, h.2.2.1, h.2.2.2⟩

/-- Concrete scroll bar collection of the C3 scenario: `max = 100`,
`steps = 4`, `value = 0`, bounds `(0, 0, 100, 10)`. -/
def c3W : Widgets :=
  ⟨[.scrollBar { id := "sb", steps := 4, value := 0, max := 100, focused := false,
                 bounds := (0, 0, 100, 10) }], 0⟩

/-- Counterexample to C3 as stated: dispatching a left press at the midpoint
`(50, 5)` of the scroll bar's bounds through `Widgets` returns ONLY the
`ScrollValueChanged` event; no `FocusChanged {focus:true}` is in the
returned list (the widget-emitted one is filtered out, and `change_focus`
synthesizes none because the ScrollBar already set its own flag). -/
theorem scrollbar_midpoint_click_counterexample :
    (c3W.dispatch (.mouseButton .left .pressed (50, 5))).2
      = [.scrollValueChanged "sb" 50 100 4] ∧
    WidgetEvent.focusChanged "sb" true ∉
      (c3W.dispatch (.mouseButton .left .pressed (50, 5))).2 := by
  have hover : is_mouse_over (0, 0, 100, 10) ((50 : ℚ), (5 : ℚ)) = true := by
    simp [is_mouse_over]
    norm_num
  have hval : Min.min (Max.max (((50 : ℚ) - 0) / 100 * 100) 0) 100 = 50 := by
    norm_num
  have hres : (c3W.dispatch (.mouseButton .left .pressed (50, 5))).2
      = [.scrollValueChanged "sb" 50 100 4] := by
    simp [c3W, Widgets.dispatch, Widgets.propagate_event, Widgets.propagateLoop,
          applyInput, WidgetState.on_mouse_button, ScrollBar.on_mouse_button, hover, hval,
          WidgetEvent.isFocusTrue, WidgetEvent.isFocusChanged, Widgets.change_focus,
          Widgets.changeFocusLoop, WidgetState.is_focused, WidgetState.set_focused,
          WidgetState.get_id]
    all_goals norm_num
  refine ⟨hres, ?_⟩
  rw [hres]
  simp

/-- C3 (amended): a `ScrollBar` with `max = 100`, `steps = 4`, `value = 0`,
left-pressed at the midpoint of its bounds through `Widgets`, yields exactly
`[ScrollValueChanged {value = 50, max = 100, steps = 4}]`; the widget's own
`FocusChanged {focus:true}` is consumed by the container and no focus event
is synthesized, because the ScrollBar already set its own focused flag
before `change_focus` ran. -/
theorem scrollbar_midpoint_click (id : String) (x y w h : ℚ) (hw : 0 < w) (hh : 0 ≤ h) :
    ((⟨[.scrollBar { id := id, steps := 4, value := 0, max := 100, focused := false,
                     bounds := (x, y, w, h) }], 0⟩ : Widgets).dispatch
        (.mouseButton .left .pressed (x + w / 2, y + h / 2))).2
      = [.scrollValueChanged id 50 100 4] := by
  have hover : is_mouse_over (x, y, w, h) (x + w / 2, y + h / 2) = true := by
    simp only [is_mouse_over, Bool.and_eq_true, decide_eq_true_eq]
    refine ⟨⟨⟨by linarith, by linarith⟩, by linarith⟩, by linarith⟩
  have hw0 : w ≠ 0 := ne_of_gt hw
  simp [Widgets.dispatch, Widgets.propagate_event, Widgets.propagateLoop,
        applyInput, WidgetState.on_mouse_button, ScrollBar.on_mouse_button, hover,
        WidgetEvent.isFocusTrue, WidgetEvent.isFocusChanged, Widgets.change_focus,
        Widgets.changeFocusLoop, WidgetState.is_focused, WidgetState.set_focused,
        WidgetState.get_id]
  have hv2 : w / 2 / w * 100 = (50 : ℚ) := by
    field_simp
    ring
  rw [hv2]
  norm_num

/-- Witness for the amended C3 at the concrete scroll bar of the scenario. -/
theorem scrollbar_midpoint_click_witness :
    (0 : ℚ) < 100 ∧ (0 : ℚ) ≤ 10 ∧
    ((c3W.dispatch (.mouseButton .left .pressed
        ((0 : ℚ) + 100 / 2, (0 : ℚ) + 10 / 2))).2
      = [.scrollValueChanged "sb" 50 100 4]) :=
  ⟨by norm_num, by norm_num,
   scrollbar_midpoint_click "sb" 0 0 100 10 (by norm_num) (by norm_num)⟩

end GliumUI
